import Mathlib

/-!
Verification of the LumaLinkAI LED-matrix controller core.

The repository contains two parallel revisions of the same controller:
`ai_utils.py` / `serial_utils.py` / `ui.py` on one hand and the monolithic
`led_matrix_control.py` on the other.  Definitions below are shallow
embeddings of those Python functions, grouped in namespaces mirroring the
source files (`AiUtils`, `SerialUtils`, `LedMatrixControl`, the shared
`AnimationManager` playback loop in `AnimModel`).

External effects are made explicit:
  * replies from the text-generation service become oracles
    `Nat → Option String` (`none` = API error, the exception branch of
    `safe_chat_completion`; `some ""` is falsy in Python and is likewise a
    failed attempt);
  * serial writes become the list of bytes handed to `ser.write`, with an
    optional injected write failure (the `except` branch);
  * the acknowledgment poll loop reads from a list of poll results
    (`none` = `in_waiting` false at that instant, `some s` = a line `s`
    read by `readline`);
  * the logging callback is pure observation and is represented by the
    distinct result constructors of `SendResult`.
-/

namespace Core

/-- Python ASCII whitespace class `\s` used by `re.split(r'[,\s]+', raw)`
together with the comma separator. -/
def isSepChar (c : Char) : Bool :=
  c = ',' || c = ' ' || c = '\t' || c = '\n' || c = '\r' ||
  c = '\x0b' || c = '\x0c'

/-- Maximal runs of characters satisfying `keep`; characters failing `keep`
only separate runs.  `runsAux` carries the (reversed) run being built. -/
def runsAux (keep : Char → Bool) : List Char → List Char → List (List Char)
  | [], acc => if acc.isEmpty then [] else [acc.reverse]
  | c :: rest, acc =>
    if keep c then runsAux keep rest (c :: acc)
    else if acc.isEmpty then runsAux keep rest []
    else acc.reverse :: runsAux keep rest []

def runsOf (keep : Char → Bool) (l : List Char) : List (List Char) :=
  runsAux keep l []

/-- Value of a decimal digit string, as Python `int(x)`. -/
def digitsToNat (t : List Char) : Nat :=
  t.foldl (fun a c => 10 * a + (c.toNat - '0'.toNat)) 0

/-- Value of a binary digit string, as Python `int(b, 2)`. -/
def bitsToNat (t : List Char) : Nat :=
  t.foldl (fun a c => 2 * a + (if c = '1' then 1 else 0)) 0

end Core

namespace AiUtils
open Core

/-- The binary-row matcher of `parse_response`:
`re.findall(r'B[01]{8}', raw)` — scan left to right, at each position try to
match a literal `B` followed by eight `0`/`1` characters; on a match emit the
eight bit characters (Python keeps the whole match `b` and then strips the
`B` with `b[1:]`) and resume after it, otherwise advance one character.
The fuel argument is the remaining scan length. -/
def findBinaryRuns : Nat → List Char → List (List Char)
  | 0, _ => []
  | _, [] => []
  | fuel + 1, c :: rest =>
    if c = 'B' && 8 ≤ rest.length && (rest.take 8).all (fun d => d = '0' || d = '1')
    then rest.take 8 :: findBinaryRuns fuel (rest.drop 8)
    else findBinaryRuns fuel rest

/-- `ai_utils.parse_response`: drop commas, collect the `B[01]{8}` matches,
fail if fewer than eight, else convert the first eight to integers. -/
def parse_response (raw : String) : Option (List Nat) :=
  let cleaned := raw.data.filter (fun c => c ≠ ',')
  let lines := findBinaryRuns cleaned.length cleaned
  if lines.length < 8 then none
  else some ((lines.take 8).map bitsToNat)

/-- `ai_utils.simple_pattern`: the fixed fallback pattern, written with the
same binary rows as the source. -/
def simple_pattern : List Nat :=
  [0b10000001, 0b01000010, 0b00100100, 0b00011000,
   0b00011000, 0b00100100, 0b01000010, 0b10000001]

/-- `ai_utils.simple_animation`: the fallback pattern repeated. -/
def simple_animation (frame_count : Nat) : List (List Nat) :=
  List.replicate frame_count simple_pattern

/-- One generation attempt: `response = safe_chat_completion(...)`, then
`if response:` (falsy on API error `none` and on the empty string) and
`parse_response`. -/
def attemptParse (r : Option String) : Option (List Nat) :=
  match r with
  | none => none
  | some s => if s = "" then none else parse_response s

/-- The per-frame retry loop of the animation branch of
`generate_patterns` (and the whole single-pattern branch): up to three
attempts, first successful parse wins.  `oracle a` is the reply of attempt
`a`; the first argument is the remaining attempt budget. -/
def firstParse (oracle : Nat → Option String) : Nat → Nat → Option (List Nat)
  | 0, _ => none
  | left + 1, a =>
    match attemptParse (oracle a) with
    | some p => some p
    | none => firstParse oracle left (a + 1)

/-- `ai_utils.generate_patterns` with `animation=False`: three attempts,
fallback to `simple_pattern()` if all fail. -/
def generate_patterns_single (oracle : Nat → Option String) : List Nat :=
  (firstParse oracle 3 0).getD simple_pattern

/-- One frame of the animation branch: three attempts, and on exhaustion
(`if not frame_received`) the fallback pattern is appended for this frame
alone. -/
def frameResult (oracle : Nat → Option String) : List Nat :=
  (firstParse oracle 3 0).getD simple_pattern

/-- The frame loop `for i in range(frame_count)` of the animation branch of
`ai_utils.generate_patterns`, building the `frames` list by appending one
entry per frame.  `oracle i a` is the reply for frame `i`, attempt `a`;
arguments are (frames still to do, current frame index). -/
def animFrames (oracle : Nat → Nat → Option String) : Nat → Nat → List (List Nat)
  | 0, _ => []
  | left + 1, i => frameResult (oracle i) :: animFrames oracle left (i + 1)

/-- `ai_utils.generate_patterns` with `animation=True`. -/
def generate_patterns_animation (oracle : Nat → Nat → Option String)
    (frame_count : Nat) : List (List Nat) :=
  animFrames oracle frame_count 0

/-- `ai_utils.mirror_pattern`: reverse each row's bits (`horizontal=True`)
or reverse the row order (`horizontal=False`).  Bit reversal is
`int(bin(row)[2:].zfill(8)[::-1], 2)`, i.e. reverse of the 8-bit string. -/
def reverseBits8 (row : Nat) : Nat :=
  (List.range 8).foldl (fun a i => 2 * a + (row >>> i) % 2) 0

def mirror_pattern (pattern : List Nat) (horizontal : Bool) : List Nat :=
  if horizontal then pattern.map reverseBits8 else pattern.reverse

/-- `ai_utils.mirror_animation`: mirror each frame of the animation with
`mirror_pattern` (the frame order is kept). -/
def mirror_animation (frames : List (List Nat)) (horizontal : Bool) :
    List (List Nat) :=
  frames.map (fun frame => mirror_pattern frame horizontal)

/-- Single-pattern branch of `ai_utils.optimize_with_ai`: one service call;
if the reply parses and differs from the input it is returned, otherwise
(API error, empty reply, parse failure, or a parse identical to the input)
the fallback `simple_pattern()` is returned. -/
def optimize_with_ai_single (r : Option String) (data : List Nat) : List Nat :=
  match r with
  | none => simple_pattern
  | some s =>
    if s = "" then simple_pattern
    else
      match parse_response s with
      | some p => if p ≠ data then p else simple_pattern
      | none => simple_pattern

end AiUtils

namespace LedMatrixControl
open Core

/-- `led_matrix_control.simple_symmetrical_pattern`:
`[(1 << (7 - i)) | (1 << i) for i in range(8)]`. -/
def simple_symmetrical_pattern : List Nat :=
  (List.range 8).map (fun i => (1 <<< (7 - i)) ||| (1 <<< i))

/-- `led_matrix_control.simple_symmetrical_animation`. -/
def simple_symmetrical_animation (frames : Nat) : List (List Nat) :=
  List.replicate frames simple_symmetrical_pattern

/-- `led_matrix_control.parse_ai_response_to_numbers`: strip `[` and `]`,
split on runs of commas/whitespace, keep the tokens that consist entirely
of digits (`n.isdigit()` — a token mixing digits with other characters is
dropped wholesale), require at least eight, convert the first eight and
require each value in `[0, 255]`. -/
def numeric_tokens (raw : String) : List (List Char) :=
  let stripped := raw.data.filter (fun c => c ≠ '[' && c ≠ ']')
  (runsOf (fun c => !isSepChar c) stripped).filter (fun t => t.all Char.isDigit)

def parse_ai_response_to_numbers (raw : String) : Option (List Nat) :=
  let nums := numeric_tokens raw
  if nums.length < 8 then none
  else
    let nums_int := (nums.take 8).map digitsToNat
    if nums_int.length = 8 && nums_int.all (fun n => decide (n ≤ 255))
    then some nums_int
    else none

/-- One attempt's reply fed through Python truthiness and the parser, as in
`if response: nums = parse_ai_response_to_numbers(response, logger)`. -/
def attemptParse (r : Option String) : Option (List Nat) :=
  match r with
  | none => none
  | some s => if s = "" then none else parse_ai_response_to_numbers s

/-- The `while attempts < 3` loop of the single-pattern branch of
`led_matrix_control.generate_patterns`; first argument is the remaining
attempt budget, second the current attempt index. -/
def genSingleLoop (oracle : Nat → Option String) : Nat → Nat → List Nat
  | 0, _ => simple_symmetrical_pattern
  | left + 1, a =>
    match attemptParse (oracle a) with
    | some nums => nums
    | none => genSingleLoop oracle left (a + 1)

/-- `led_matrix_control.generate_patterns` with `animation=False`. -/
def generate_patterns_single (oracle : Nat → Option String) : List Nat :=
  genSingleLoop oracle 3 0

/-- The inner frame loop of one whole-animation attempt: each frame gets a
single service call, and any failure sets `success = False` and breaks,
aborting the attempt (`none`).  Arguments: (frames still to do, frame
index). -/
def attemptFrames (oracle : Nat → Option String) : Nat → Nat → Option (List (List Nat))
  | 0, _ => some []
  | left + 1, i =>
    match attemptParse (oracle i) with
    | some nums_frame => (attemptFrames oracle left (i + 1)).map (nums_frame :: ·)
    | none => none

/-- The `while attempts < 3` loop of the animation branch: a fully
successful attempt is returned, otherwise the next attempt starts from
scratch; after three failed attempts the fallback animation is returned. -/
def genAnimLoop (oracle : Nat → Nat → Option String) (frame_count : Nat) :
    Nat → Nat → List (List Nat)
  | 0, _ => simple_symmetrical_animation frame_count
  | left + 1, a =>
    match attemptFrames (oracle a) frame_count 0 with
    | some frames_list => frames_list
    | none => genAnimLoop oracle frame_count left (a + 1)

/-- `led_matrix_control.generate_patterns` with `animation=True`:
`oracle a i` is the reply for attempt `a`, frame `i`. -/
def generate_patterns_animation (oracle : Nat → Nat → Option String)
    (frame_count : Nat) : List (List Nat) :=
  genAnimLoop oracle frame_count 3 0

/-- The `while attempts < 3` loop of the single-pattern branch of
`led_matrix_control.optimize_with_ai`: an attempt succeeds only if the
reply parses AND differs from the input (`nums and nums != current_data`);
after three failures the fallback pattern is returned. -/
def optSingleLoop (oracle : Nat → Option String) (current_data : List Nat) :
    Nat → Nat → List Nat
  | 0, _ => simple_symmetrical_pattern
  | left + 1, a =>
    match attemptParse (oracle a) with
    | some nums =>
      if nums ≠ current_data then nums
      else optSingleLoop oracle current_data left (a + 1)
    | none => optSingleLoop oracle current_data left (a + 1)

/-- Single-pattern branch of `led_matrix_control.optimize_with_ai`. -/
def optimize_with_ai_single (oracle : Nat → Option String)
    (current_data : List Nat) : List Nat :=
  optSingleLoop oracle current_data 3 0

/-- `led_matrix_control.mirror_pattern_vertical`: `pattern[::-1]`. -/
def mirror_pattern_vertical (pattern : List Nat) : List Nat :=
  pattern.reverse

/-- `led_matrix_control.mirror_animation_vertical`: `frames[::-1]`. -/
def mirror_animation_vertical (frames : List (List Nat)) : List (List Nat) :=
  frames.reverse

end LedMatrixControl

/-! ## The serial layer

Transmission outcomes.  The Python senders communicate outcomes through
their logging callback (and, in `led_matrix_control.send_single_frame`,
through which branch of the acknowledgment wait is reached); the
constructors below name those mutually exclusive branches, following the
spec's `AckResult` / error taxonomy. -/

inductive SendResult where
  /-- length / frame-count validation failed; the function returned before
  entering the `try` block. -/
  | validationError : SendResult
  /-- a write or flush raised; the `except` branch logged a serial error. -/
  | transportError : SendResult
  /-- all bytes written and the function returned without any
  acknowledgment wait (the fire-and-forget senders). -/
  | sent : SendResult
  /-- the expected acknowledgment line arrived within the bound. -/
  | acknowledged : SendResult
  /-- the acknowledgment wait elapsed without a match. -/
  | timedOut : SendResult
deriving DecidableEq, Repr

/-- Observable outcome of one send call: the result branch, the bytes that
reached `ser.write`, and how many lines `ser.readline()` consumed. -/
structure SendRun where
  result : SendResult
  written : List Nat
  reads : Nat
deriving DecidableEq, Repr

namespace SerialUtils
open Core

/-- `serial_utils.send_frame`: validate `len(pattern) == 8` before any
I/O, then write `0xFF`, the eight pattern bytes, `0xFE`.  There is no
acknowledgment wait — the function returns right after the writes (the
`update_preview` callback is UI plumbing outside the core, spec §1).
`writeFail = some j` injects an exception at the `j`-th byte write. -/
def send_frame (pattern : List Nat) (writeFail : Option Nat) : SendRun :=
  if pattern.length ≠ 8 then ⟨.validationError, [], 0⟩
  else
    let wire := 0xFF :: pattern ++ [0xFE]
    match writeFail with
    | some j => ⟨.transportError, wire.take j, 0⟩
    | none => ⟨.sent, wire, 0⟩

/-- `serial_utils.send_animation`: validate `1 ≤ len(frames) ≤ max_frames`
(default 10) before any I/O, then write `0xFA`, the frame count, every
frame byte in order, `0xFB`.  No acknowledgment wait. -/
def send_animation (frames : List (List Nat)) (writeFail : Option Nat) : SendRun :=
  let frame_count := frames.length
  if frame_count < 1 || 10 < frame_count then ⟨.validationError, [], 0⟩
  else
    let wire := 0xFA :: frame_count :: frames.flatten ++ [0xFB]
    match writeFail with
    | some j => ⟨.transportError, wire.take j, 0⟩
    | none => ⟨.sent, wire, 0⟩

end SerialUtils

namespace LedMatrixControl
open Core

/-- The acknowledgment poll loop of `send_single_frame`:
`while not ack and (time.time() - start) < 5:` — each iteration is one
time unit of the five-unit budget; when `in_waiting` (`polls` head is
`some line`) the line is read and compared against the expected success
string.  Returns whether the ack was seen and how many lines were read. -/
def ackLoop (expected : String) : Nat → List (Option String) → Bool × Nat
  | 0, _ => (false, 0)
  | _ + 1, [] => (false, 0)
  | fuel + 1, none :: rest => ackLoop expected fuel rest
  | fuel + 1, some line :: rest =>
    if line = expected then (true, 1)
    else
      let r := ackLoop expected fuel rest
      (r.1, r.2 + 1)

/-- `led_matrix_control.send_single_frame`: validate the length, write
`0xFF`, the eight bytes, `0xFE`, then wait up to 5 time units for the line
`"Pattern received."`; a write failure raises into the `except` branch
before any read. -/
def send_single_frame (pattern : List Nat) (writeFail : Option Nat)
    (polls : List (Option String)) : SendRun :=
  if pattern.length ≠ 8 then ⟨.validationError, [], 0⟩
  else
    let wire := 0xFF :: pattern ++ [0xFE]
    match writeFail with
    | some j => ⟨.transportError, wire.take j, 0⟩
    | none =>
      let ack := ackLoop "Pattern received." 5 polls
      ⟨if ack.1 then .acknowledged else .timedOut, wire, ack.2⟩

/-- `led_matrix_control.send_animation`: validate `1 ≤ count ≤
MAX_ANIMATION_FRAMES` (10), write `0xFA`, the count, every frame byte,
`0xFB`, and return — like the `serial_utils` revision it performs no
acknowledgment wait. -/
def send_animation (frames : List (List Nat)) (writeFail : Option Nat) : SendRun :=
  let count := frames.length
  if count = 0 then ⟨.validationError, [], 0⟩
  else if 10 < count then ⟨.validationError, [], 0⟩
  else
    let wire := 0xFA :: count :: frames.flatten ++ [0xFB]
    match writeFail with
    | some j => ⟨.transportError, wire.take j, 0⟩
    | none => ⟨.sent, wire, 0⟩

end LedMatrixControl

namespace SpecModel

/-- Modelled from the spec: the acknowledgment wait that §4.2 of the spec
and claim C2 ascribe to `sendAnimation` — after the writes, consume lines
until one of the two accepted success strings `"Animation received."` or
`"Invalid end marker received."` arrives (neither treated as an error).
No revision in the repository implements this wait; this definition exists
only to compare the spec's words against the code. -/
def animAckLoop : List (Option String) → Bool × Nat
  | [] => (false, 0)
  | none :: rest => animAckLoop rest
  | some line :: rest =>
    if line = "Animation received." || line = "Invalid end marker received."
    then (true, 1)
    else
      let r := animAckLoop rest
      (r.1, r.2 + 1)

/-- Modelled from the spec: `sendAnimation` as claim C2 states it —
the framing writes of the code followed by the acknowledgment wait. -/
def send_animation_as_claimed (frames : List (List Nat))
    (polls : List (Option String)) : SendRun :=
  let frame_count := frames.length
  if frame_count < 1 || 10 < frame_count then ⟨.validationError, [], 0⟩
  else
    let wire := 0xFA :: frame_count :: frames.flatten ++ [0xFB]
    let ack := animAckLoop polls
    ⟨if ack.1 then .acknowledged else .timedOut, wire, ack.2⟩

/-- Modelled from the spec: the parser as claim C5 words it — extract all
maximal digit runs from the reply (brackets and other non-digit characters
only separate runs), require at least eight, take the first eight, require
each in `[0, 255]`. -/
def parse_by_digit_runs (raw : String) : Option (List Nat) :=
  let runs := Core.runsOf Char.isDigit raw.data
  if runs.length < 8 then none
  else
    let vals := (runs.take 8).map Core.digitsToNat
    if vals.all (fun n => decide (n ≤ 255)) then some vals else none

end SpecModel

/-! ## The playback loop (`AnimationManager` in `ui.py` and
`led_matrix_control.py`)

`start(frames)` runs, in order: `if self.playing: self.stop()` (and
`stop()` sets `stop_flag` only when `playing`), `self.playing = True`,
`self.stop_flag.clear()`, then spawns a daemon thread running
`_play(frames)`.  `_play` loops `while self.playing:` over the frame list,
checking `stop_flag` before emitting each frame (`canvas.after(0, ...)`
posts the visual update, in posting order) and sleeping between frames;
when the `while` condition fails it clears `playing` and `stop_flag` and
the thread ends.

The model below is a small-step interleaving semantics over that code.
Each transition corresponds to a step of one thread between points where
the interpreter can switch threads; `canvas.after` posts are recorded in
`emitted` in posting order, tagged with the loop's spawn index.  A
schedule is a list of choices: `none` steps the main (UI) thread, `some j`
steps the `j`-th spawned loop thread. -/

namespace AnimModel

/-- Program counter of a `_play` thread: at the `while self.playing`
check, about to check `stop_flag` for frame `i` (also covers the for-loop
bound check), sleeping after emitting frame `i`, or exited. -/
inductive LoopPC where
  | atWhile : LoopPC
  | atCheck : Nat → LoopPC
  | atSleep : Nat → LoopPC
  | finished : LoopPC
deriving DecidableEq, Repr

/-- A spawned `_play` thread: the length of its frame list and where it
is. -/
structure LoopThread where
  frames : Nat
  pc : LoopPC
deriving DecidableEq, Repr

/-- Program counter inside one `start(frames)` call. -/
inductive StartPC where
  /-- `if self.playing: self.stop()` — reads `playing`; when set, sets
  `stop_flag`. -/
  | sStop : StartPC
  /-- `self.playing = True` -/
  | sSetPlaying : StartPC
  /-- `self.stop_flag.clear()` -/
  | sClearFlag : StartPC
  /-- `threading.Thread(target=self._play, ...).start()` -/
  | sSpawn : StartPC
deriving DecidableEq, Repr

/-- Whole-system state: the shared `playing` / `stop_flag` fields, the
posted visual updates (loop index, frame index), the spawned loop threads,
and the main thread's remaining `start` calls (frame-list lengths) with
its position inside the current call. -/
structure SysState where
  playing : Bool
  stopFlag : Bool
  emitted : List (Nat × Nat)
  loops : List LoopThread
  queue : List Nat
  startPC : StartPC
deriving DecidableEq, Repr

/-- One step of the main thread (its pending `start` calls). -/
def mainStep (s : SysState) : SysState :=
  match s.queue with
  | [] => s
  | _ :: restQ =>
    match s.startPC with
    | .sStop =>
      { s with stopFlag := if s.playing then true else s.stopFlag,
               startPC := .sSetPlaying }
    | .sSetPlaying => { s with playing := true, startPC := .sClearFlag }
    | .sClearFlag => { s with stopFlag := false, startPC := .sSpawn }
    | .sSpawn =>
      { s with loops := s.loops ++ [⟨s.queue.headD 0, .atWhile⟩],
               queue := restQ, startPC := .sStop }

/-- One step of loop thread `j`. -/
def loopStep (s : SysState) (j : Nat) : SysState :=
  match s.loops[j]? with
  | none => s
  | some t =>
    match t.pc with
    | .atWhile =>
      if s.playing then
        { s with loops := s.loops.set j { t with pc := .atCheck 0 } }
      else
        -- `while` exits: `self.playing = False; self.stop_flag.clear()`
        { s with playing := false, stopFlag := false,
                 loops := s.loops.set j { t with pc := .finished } }
    | .atCheck i =>
      if t.frames ≤ i then
        { s with loops := s.loops.set j { t with pc := .atWhile } }
      else if s.stopFlag then
        -- `break` out of the for loop, back to the `while` condition
        { s with loops := s.loops.set j { t with pc := .atWhile } }
      else
        -- `self.canvas.after(0, ...)` posts the update, then sleep
        { s with emitted := s.emitted ++ [(j, i)],
                 loops := s.loops.set j { t with pc := .atSleep i } }
    | .atSleep i =>
      { s with loops := s.loops.set j { t with pc := .atCheck (i + 1) } }
    | .finished => s

def step (s : SysState) (choice : Option Nat) : SysState :=
  match choice with
  | none => mainStep s
  | some j => loopStep s j

/-- Run the system from `start(framesA); start(framesB)` pending (both
animations have `frameCount` frames) under a schedule. -/
def runSystem (frameCount : Nat) (sched : List (Option Nat)) : SysState :=
  sched.foldl step
    { playing := false, stopFlag := false, emitted := [],
      loops := [], queue := [frameCount, frameCount], startPC := .sStop }

/-- The hand-over discipline claim C4 asserts for the emission log: once
the second loop (index 1) has emitted, the first loop (index 0) emits
nothing further. -/
def cleanHandover (tr : List (Nat × Nat)) : Bool :=
  (tr.dropWhile (fun e => e.1 = 0)).all (fun e => e.1 = 1)

/-- Schedule realizing the §8 scenario: `start(framesA)` completes and its
loop emits frame 0 and sleeps; `start(framesB)` runs in full during that
sleep (10ms < one frame interval); the new loop emits its frame 0; the old
loop wakes, finds the stop flag already cleared, and emits frame 1. -/
def raceSchedule : List (Option Nat) :=
  [none, none, none, none,        -- start(framesA) start to finish
   some 0, some 0,                -- loop 0: enter, emit (0,0), sleep
   none, none, none, none,        -- start(framesB): signal, set, clear, spawn
   some 1, some 1,                -- loop 1: enter, emit (1,0), sleep
   some 0, some 0]                -- loop 0 wakes: check (flag clear), emit (0,1)

end AnimModel

/-! ## Helper lemmas -/

theorem Core.bitsToNat_foldl_lt (t : List Char) :
    ∀ a : Nat, t.foldl (fun a c => 2 * a + (if c = '1' then 1 else 0)) a
      < (a + 1) * 2 ^ t.length := by
  induction t with
  | nil =>
    intro a
    simp only [List.foldl, List.length_nil, pow_zero, mul_one]
    exact Nat.lt_succ_self a
  | cons c rest ih =>
    intro a
    have h := ih (2 * a + (if c = '1' then 1 else 0))
    have hstep : (2 * a + (if c = '1' then 1 else 0) + 1) * 2 ^ rest.length
        ≤ (a + 1) * 2 ^ (rest.length + 1) := by
      have hb : (if c = '1' then (1:Nat) else 0) ≤ 1 := by split <;> omega
      have hmul : (2 * a + (if c = '1' then 1 else 0) + 1) ≤ (a + 1) * 2 := by omega
      calc (2 * a + (if c = '1' then 1 else 0) + 1) * 2 ^ rest.length
          ≤ (a + 1) * 2 * 2 ^ rest.length := Nat.mul_le_mul_right _ hmul
        _ = (a + 1) * 2 ^ (rest.length + 1) := by ring
    simp only [List.foldl, List.length_cons]
    exact Nat.lt_of_lt_of_le h hstep

theorem Core.bitsToNat_le_255 (t : List Char) (h : t.length = 8) :
    Core.bitsToNat t ≤ 255 := by
  have hlt := Core.bitsToNat_foldl_lt t 0
  rw [h] at hlt
  have : Core.bitsToNat t < 256 := by simpa [Core.bitsToNat, h] using hlt
  omega

theorem AiUtils.findBinaryRuns_mem_length :
    ∀ (fuel : Nat) (l t : List Char), t ∈ AiUtils.findBinaryRuns fuel l →
      t.length = 8 := by
  intro fuel
  induction fuel with
  | zero => intro l t ht; simp [AiUtils.findBinaryRuns] at ht
  | succ fuel ih =>
    intro l t ht
    match l with
    | [] => simp [AiUtils.findBinaryRuns] at ht
    | c :: rest =>
      rw [AiUtils.findBinaryRuns] at ht
      split at ht
      · rename_i hguard
        simp only [Bool.and_eq_true, decide_eq_true_eq] at hguard
        rcases List.mem_cons.mp ht with h | h
        · subst h
          simpa [List.length_take] using hguard.1.2
        · exact ih _ t h
      · exact ih rest t ht

theorem AiUtils.parse_response_shape (raw : String) (l : List Nat)
    (h : AiUtils.parse_response raw = some l) :
    l.length = 8 ∧ ∀ v ∈ l, v ≤ 255 := by
  simp only [AiUtils.parse_response] at h
  split at h
  · exact absurd h (by simp)
  · rename_i hlen
    injection h with h
    subst h
    push_neg at hlen
    constructor
    · rw [List.length_map, List.length_take]
      omega
    · intro v hv
      obtain ⟨t, ht, rfl⟩ := List.mem_map.mp hv
      have := AiUtils.findBinaryRuns_mem_length _ _ t (List.take_subset _ _ ht)
      exact Core.bitsToNat_le_255 t this

theorem AiUtils.attemptParse_ai_shape (r : Option String) (l : List Nat)
    (h : AiUtils.attemptParse r = some l) :
    l.length = 8 ∧ ∀ v ∈ l, v ≤ 255 := by
  unfold AiUtils.attemptParse at h
  match r with
  | none => exact absurd h (by simp)
  | some s =>
    simp only at h
    split at h
    · exact absurd h (by simp)
    · exact AiUtils.parse_response_shape s l h

theorem AiUtils.firstParse_shape (oracle : Nat → Option String) :
    ∀ (fuel a : Nat) (l : List Nat),
      AiUtils.firstParse oracle fuel a = some l →
      l.length = 8 ∧ ∀ v ∈ l, v ≤ 255 := by
  intro fuel
  induction fuel with
  | zero => intro a l h; simp [AiUtils.firstParse] at h
  | succ fuel ih =>
    intro a l h
    rw [AiUtils.firstParse] at h
    split at h
    · rename_i p hp
      injection h with h
      subst h
      exact AiUtils.attemptParse_ai_shape _ _ hp
    · exact ih (a + 1) l h

theorem AiUtils.simple_pattern_shape :
    AiUtils.simple_pattern.length = 8 ∧ ∀ v ∈ AiUtils.simple_pattern, v ≤ 255 := by
  decide

theorem AiUtils.frameResult_shape (oracle : Nat → Option String) :
    (AiUtils.frameResult oracle).length = 8 ∧
    ∀ v ∈ AiUtils.frameResult oracle, v ≤ 255 := by
  unfold AiUtils.frameResult
  match hf : AiUtils.firstParse oracle 3 0 with
  | some p => simpa using AiUtils.firstParse_shape oracle 3 0 p hf
  | none => simpa using AiUtils.simple_pattern_shape

theorem LedMatrixControl.parse_ai_response_shape (raw : String) (l : List Nat)
    (h : LedMatrixControl.parse_ai_response_to_numbers raw = some l) :
    l.length = 8 ∧ ∀ v ∈ l, v ≤ 255 := by
  simp only [LedMatrixControl.parse_ai_response_to_numbers] at h
  split at h
  · exact absurd h (by simp)
  · split at h
    · rename_i hcond
      simp only [Bool.and_eq_true, decide_eq_true_eq, List.all_eq_true] at hcond
      injection h with h
      subst h
      exact ⟨hcond.1, hcond.2⟩
    · exact absurd h (by simp)

theorem LedMatrixControl.attemptParse_lmc_shape (r : Option String) (l : List Nat)
    (h : LedMatrixControl.attemptParse r = some l) :
    l.length = 8 ∧ ∀ v ∈ l, v ≤ 255 := by
  unfold LedMatrixControl.attemptParse at h
  match r with
  | none => exact absurd h (by simp)
  | some s =>
    simp only at h
    split at h
    · exact absurd h (by simp)
    · exact LedMatrixControl.parse_ai_response_shape s l h

theorem LedMatrixControl.simple_symmetrical_pattern_shape :
    LedMatrixControl.simple_symmetrical_pattern.length = 8 ∧
    ∀ v ∈ LedMatrixControl.simple_symmetrical_pattern, v ≤ 255 := by
  decide

theorem LedMatrixControl.attemptFrames_shape (oracle : Nat → Option String) :
    ∀ (left i : Nat) (fl : List (List Nat)),
      LedMatrixControl.attemptFrames oracle left i = some fl →
      fl.length = left ∧ ∀ f ∈ fl, f.length = 8 ∧ ∀ v ∈ f, v ≤ 255 := by
  intro left
  induction left with
  | zero =>
    intro i fl h
    rw [LedMatrixControl.attemptFrames] at h
    injection h with h
    subst h
    simp
  | succ left ih =>
    intro i fl h
    rw [LedMatrixControl.attemptFrames] at h
    split at h
    · rename_i nums hnums
      match hrec : LedMatrixControl.attemptFrames oracle left (i + 1) with
      | none => rw [hrec] at h; exact absurd h (by simp [Option.map])
      | some rest =>
        rw [hrec] at h
        injection h with h
        subst h
        obtain ⟨hlen, hmem⟩ := ih (i + 1) rest hrec
        refine ⟨by simp [hlen], ?_⟩
        intro f hf
        rcases List.mem_cons.mp hf with hf | hf
        · subst hf; exact LedMatrixControl.attemptParse_lmc_shape _ _ hnums
        · exact hmem f hf
    · exact absurd h (by simp)

theorem LedMatrixControl.genAnimLoop_shape (oracle : Nat → Nat → Option String)
    (frame_count : Nat) :
    ∀ (left a : Nat),
      (LedMatrixControl.genAnimLoop oracle frame_count left a).length = frame_count ∧
      ∀ f ∈ LedMatrixControl.genAnimLoop oracle frame_count left a,
        f.length = 8 ∧ ∀ v ∈ f, v ≤ 255 := by
  intro left
  induction left with
  | zero =>
    intro a
    rw [LedMatrixControl.genAnimLoop]
    constructor
    · simp [LedMatrixControl.simple_symmetrical_animation]
    · intro f hf
      have := List.eq_of_mem_replicate hf
      subst this
      exact LedMatrixControl.simple_symmetrical_pattern_shape
  | succ left ih =>
    intro a
    rw [LedMatrixControl.genAnimLoop]
    split
    · rename_i fl hfl
      have := LedMatrixControl.attemptFrames_shape (oracle a) frame_count 0 fl hfl
      exact ⟨this.1, this.2⟩
    · exact ih (a + 1)

theorem AiUtils.animFrames_shape (oracle : Nat → Nat → Option String) :
    ∀ (left i : Nat),
      (AiUtils.animFrames oracle left i).length = left ∧
      ∀ f ∈ AiUtils.animFrames oracle left i,
        f.length = 8 ∧ ∀ v ∈ f, v ≤ 255 := by
  intro left
  induction left with
  | zero => intro i; simp [AiUtils.animFrames]
  | succ left ih =>
    intro i
    rw [AiUtils.animFrames]
    obtain ⟨hlen, hmem⟩ := ih (i + 1)
    refine ⟨by simp [hlen], ?_⟩
    intro f hf
    rcases List.mem_cons.mp hf with hf | hf
    · subst hf; exact AiUtils.frameResult_shape (oracle i)
    · exact hmem f hf

theorem AiUtils.animFrames_getElem (oracle : Nat → Nat → Option String) :
    ∀ (left i j : Nat), j < left →
      (AiUtils.animFrames oracle left i)[j]? =
        some (AiUtils.frameResult (oracle (i + j))) := by
  intro left
  induction left with
  | zero => intro i j hj; omega
  | succ left ih =>
    intro i j hj
    rw [AiUtils.animFrames]
    match j with
    | 0 => simp
    | j + 1 =>
      have hrec := ih (i + 1) j (by omega)
      have hidx : i + 1 + j = i + (j + 1) := by omega
      rw [hidx] at hrec
      simpa only [List.getElem?_cons_succ] using hrec

theorem LedMatrixControl.ackLoop_fst_iff (expected : String) :
    ∀ (fuel : Nat) (polls : List (Option String)),
      (LedMatrixControl.ackLoop expected fuel polls).1 = true ↔
        some expected ∈ polls.take fuel := by
  intro fuel
  induction fuel with
  | zero => intro polls; simp [LedMatrixControl.ackLoop]
  | succ fuel ih =>
    intro polls
    match polls with
    | [] => simp [LedMatrixControl.ackLoop]
    | none :: rest =>
      rw [LedMatrixControl.ackLoop]
      simp [ih rest]
    | some line :: rest =>
      rw [LedMatrixControl.ackLoop]
      split
      · rename_i heq
        subst heq
        simp
      · rename_i hne
        have : some expected ≠ some line := by
          intro hcontra
          exact hne (Option.some.injEq _ _ ▸ hcontra).symm
        simp [ih rest, this]

/-! ## Claim theorems -/

/-- Claim C7 (confirmed).  The fallback pattern of both revisions
(`simple_symmetrical_pattern` from `row[i] = (1 << (7-i)) | (1 << i)` and
`simple_pattern` from the binary literals) is exactly
`[129, 66, 36, 24, 24, 36, 66, 129]`, and whenever all three
single-pattern generation attempts fail to produce a valid parse, both
revisions' `generate_patterns` return exactly this pattern. -/
theorem c7_fallback_pattern_value :
    LedMatrixControl.simple_symmetrical_pattern = [129, 66, 36, 24, 24, 36, 66, 129] ∧
    AiUtils.simple_pattern = [129, 66, 36, 24, 24, 36, 66, 129] ∧
    (∀ oracle : Nat → Option String,
      (∀ a, a < 3 → LedMatrixControl.attemptParse (oracle a) = none) →
      LedMatrixControl.generate_patterns_single oracle =
        LedMatrixControl.simple_symmetrical_pattern) ∧
    (∀ oracle : Nat → Option String,
      (∀ a, a < 3 → AiUtils.attemptParse (oracle a) = none) →
      AiUtils.generate_patterns_single oracle = AiUtils.simple_pattern) := by
  refine ⟨by decide, by decide, ?_, ?_⟩
  · intro oracle h
    unfold LedMatrixControl.generate_patterns_single
    rw [LedMatrixControl.genSingleLoop, h 0 (by omega),
        LedMatrixControl.genSingleLoop, h 1 (by omega),
        LedMatrixControl.genSingleLoop, h 2 (by omega),
        LedMatrixControl.genSingleLoop]
  · intro oracle h
    unfold AiUtils.generate_patterns_single
    rw [AiUtils.firstParse, h 0 (by omega),
        AiUtils.firstParse, h 1 (by omega),
        AiUtils.firstParse, h 2 (by omega),
        AiUtils.firstParse]
    rfl

/-- Witness for C7: a service that errors on every attempt makes both
generators return the fallback pattern. -/
theorem c7_fallback_pattern_value_witness :
    LedMatrixControl.generate_patterns_single (fun _ => none) =
      LedMatrixControl.simple_symmetrical_pattern ∧
    AiUtils.generate_patterns_single (fun _ => none) = AiUtils.simple_pattern :=
  ⟨c7_fallback_pattern_value.2.2.1 (fun _ => none) (fun _ _ => rfl),
   c7_fallback_pattern_value.2.2.2 (fun _ => none) (fun _ _ => rfl)⟩

/-- Claim C6 (confirmed).  `serial_utils.send_frame` rejects any pattern
whose length is not 8 before performing any I/O (no byte written), and
`serial_utils.send_animation` likewise rejects an empty frame list or one
of more than 10 frames; both failures surface immediately as the
validation-error result, regardless of the state of the stream. -/
theorem c6_validation_before_io :
    (∀ (pattern : List Nat) (writeFail : Option Nat), pattern.length ≠ 8 →
      SerialUtils.send_frame pattern writeFail =
        ⟨SendResult.validationError, [], 0⟩) ∧
    (∀ (frames : List (List Nat)) (writeFail : Option Nat),
      frames.length = 0 ∨ 10 < frames.length →
      SerialUtils.send_animation frames writeFail =
        ⟨SendResult.validationError, [], 0⟩) := by
  constructor
  · intro pattern writeFail h
    unfold SerialUtils.send_frame
    rw [if_pos h]
  · intro frames writeFail h
    unfold SerialUtils.send_animation
    have : (frames.length < 1 || 10 < frames.length) = true := by
      rcases h with h | h <;> simp [h]
    simp only [this]
    rfl

/-- Witness for C6: a 7-element pattern and an empty animation are both
rejected with nothing written. -/
theorem c6_validation_before_io_witness :
    SerialUtils.send_frame [0, 0, 0, 0, 0, 0, 0] none =
      ⟨SendResult.validationError, [], 0⟩ ∧
    SerialUtils.send_animation [] none = ⟨SendResult.validationError, [], 0⟩ :=
  ⟨c6_validation_before_io.1 [0, 0, 0, 0, 0, 0, 0] none (by decide),
   c6_validation_before_io.2 [] none (Or.inl rfl)⟩

/-- Claim C9 counterexample.  `ai_utils.mirror_animation` with
`horizontal=False` — the vertical animation mirror wired to the UI's
"Mirror Vertical" button in `ui.py` — does not reverse the frame order:
on the two-frame animation below it reverses the rows inside each frame
instead, so frame 0 of the result is not frame 1 of the input and the
frame contents are changed. -/
theorem c9_mirror_counterexample :
    AiUtils.mirror_animation
        [[1, 2, 3, 4, 5, 6, 7, 8], [11, 12, 13, 14, 15, 16, 17, 18]] false =
      [[8, 7, 6, 5, 4, 3, 2, 1], [18, 17, 16, 15, 14, 13, 12, 11]] ∧
    AiUtils.mirror_animation
        [[1, 2, 3, 4, 5, 6, 7, 8], [11, 12, 13, 14, 15, 16, 17, 18]] false ≠
      [[11, 12, 13, 14, 15, 16, 17, 18], [1, 2, 3, 4, 5, 6, 7, 8]] := by
  constructor
  · rfl
  · decide

/-- Claim C9 (corrected).  `led_matrix_control.mirror_animation_vertical`
reverses the frame order leaving every frame unchanged (frame `i` of the
result is frame `N-1-i` of the input), but the `ai_utils.mirror_animation`
revision with `horizontal=False` instead reverses the row order inside
each frame and keeps the frame order. -/
theorem c9_mirror_vertical :
    ∀ frames : List (List Nat),
      LedMatrixControl.mirror_animation_vertical frames = frames.reverse ∧
      (∀ i, i < frames.length →
        (LedMatrixControl.mirror_animation_vertical frames)[i]? =
          frames[frames.length - 1 - i]?) ∧
      AiUtils.mirror_animation frames false = frames.map List.reverse := by
  intro frames
  refine ⟨rfl, ?_, ?_⟩
  · intro i hi
    unfold LedMatrixControl.mirror_animation_vertical
    rw [List.getElem?_reverse hi]
  · unfold AiUtils.mirror_animation AiUtils.mirror_pattern
    simp

/-- Witness for C9's amended statement at a concrete two-frame
animation. -/
theorem c9_mirror_vertical_witness :
    (LedMatrixControl.mirror_animation_vertical [[1], [2]])[0]? = [[1], [2]][1]? :=
  (c9_mirror_vertical [[1], [2]]).2.1 0 (by decide)

/-- Claim C5 counterexample.  The reply `"12a34 1 2 3 4 5 6 7"` contains
nine maximal digit runs (12, 34, 1, …, 7), so the parser described by the
claim — extract all maximal digit runs, take the first eight — succeeds on
it; but `parse_ai_response_to_numbers` keeps only comma/whitespace-separated
tokens that consist entirely of digits, drops the token `12a34` wholesale,
is left with seven tokens, and fails. -/
theorem c5_digit_runs_counterexample :
    SpecModel.parse_by_digit_runs "12a34 1 2 3 4 5 6 7" =
      some [12, 34, 1, 2, 3, 4, 5, 6] ∧
    LedMatrixControl.parse_ai_response_to_numbers "12a34 1 2 3 4 5 6 7" = none := by
  constructor
  · rfl
  · rfl

/-- Claim C5 (corrected).  `parse_ai_response_to_numbers` strips brackets,
splits the reply on commas/whitespace and keeps the tokens consisting
entirely of digits; if fewer than eight such tokens remain it fails —
never returning a short array — and otherwise it takes the first eight and
succeeds exactly when each value is at most 255.  In particular every
returned result is exactly 8 integers in [0, 255]. -/
theorem c5_parser_totality :
    ∀ raw : String,
      (∀ l, LedMatrixControl.parse_ai_response_to_numbers raw = some l →
        l.length = 8 ∧ ∀ n ∈ l, n ≤ 255) ∧
      ((LedMatrixControl.numeric_tokens raw).length < 8 →
        LedMatrixControl.parse_ai_response_to_numbers raw = none) ∧
      (8 ≤ (LedMatrixControl.numeric_tokens raw).length →
        LedMatrixControl.parse_ai_response_to_numbers raw =
          (if (((LedMatrixControl.numeric_tokens raw).take 8).map
                Core.digitsToNat).all (fun n => decide (n ≤ 255))
           then some (((LedMatrixControl.numeric_tokens raw).take 8).map
                Core.digitsToNat)
           else none)) := by
  intro raw
  refine ⟨fun l => LedMatrixControl.parse_ai_response_shape raw l, ?_, ?_⟩
  · intro h
    simp only [LedMatrixControl.parse_ai_response_to_numbers]
    rw [if_pos h]
  · intro h
    simp only [LedMatrixControl.parse_ai_response_to_numbers]
    rw [if_neg (by omega)]
    have hlen : (((LedMatrixControl.numeric_tokens raw).take 8).map
        Core.digitsToNat).length = 8 := by
      rw [List.length_map, List.length_take]
      omega
    simp [hlen, h]

/-- Witness for C5's amended statement: a two-token reply fails, a
nine-token reply yields exactly the first eight integers. -/
theorem c5_parser_totality_witness :
    LedMatrixControl.parse_ai_response_to_numbers "1 2" = none ∧
    LedMatrixControl.parse_ai_response_to_numbers "1 2 3 4 5 6 7 8 9" =
      some [1, 2, 3, 4, 5, 6, 7, 8] := by
  constructor
  · exact (c5_parser_totality "1 2").2.1 (by decide)
  · rw [(c5_parser_totality "1 2 3 4 5 6 7 8 9").2.2 (by decide)]
    rfl

/-- Claim C8 counterexample.  When the service reply parses to exactly the
input pattern (here all-zero rows), `ai_utils.optimize_with_ai` does not
keep the input: the `optimized_pattern != data` test fails and the
function returns the fallback `simple_pattern()`, which differs from the
input — so the caller in `ui.perform_optimization` sees a changed result,
replaces the pattern with the fallback, and never logs "No change." -/
theorem c8_identity_counterexample :
    AiUtils.parse_response
        "B00000000B00000000B00000000B00000000B00000000B00000000B00000000B00000000" =
      some [0, 0, 0, 0, 0, 0, 0, 0] ∧
    AiUtils.optimize_with_ai_single
        (some "B00000000B00000000B00000000B00000000B00000000B00000000B00000000B00000000")
        [0, 0, 0, 0, 0, 0, 0, 0] = AiUtils.simple_pattern ∧
    AiUtils.simple_pattern ≠ [0, 0, 0, 0, 0, 0, 0, 0] := by
  refine ⟨rfl, rfl, by decide⟩

/-- Claim C8 (corrected).  A reply whose parse is identical to the input
is treated as a failed attempt: the `ai_utils` revision immediately
substitutes the fallback pattern (so the result equals the input only
when the input already is the fallback pattern), and the
`led_matrix_control` revision burns all three retries on identical parses
and then substitutes the fallback pattern as well. -/
theorem c8_identity_fallback :
    (∀ (s : String) (data : List Nat), s ≠ "" →
      AiUtils.parse_response s = some data →
      AiUtils.optimize_with_ai_single (some s) data = AiUtils.simple_pattern ∧
      (AiUtils.optimize_with_ai_single (some s) data = data ↔
        data = AiUtils.simple_pattern)) ∧
    (∀ (oracle : Nat → Option String) (data : List Nat),
      (∀ a, a < 3 → LedMatrixControl.attemptParse (oracle a) = some data) →
      LedMatrixControl.optimize_with_ai_single oracle data =
        LedMatrixControl.simple_symmetrical_pattern) := by
  constructor
  · intro s data hs hp
    have hopt : AiUtils.optimize_with_ai_single (some s) data =
        AiUtils.simple_pattern := by
      simp only [AiUtils.optimize_with_ai_single]
      rw [if_neg hs, hp]
      simp
    refine ⟨hopt, ?_⟩
    rw [hopt]
    exact eq_comm
  · intro oracle data h
    have step : ∀ left a, LedMatrixControl.attemptParse (oracle a) = some data →
        LedMatrixControl.optSingleLoop oracle data (left + 1) a =
          LedMatrixControl.optSingleLoop oracle data left (a + 1) := by
      intro left a ha
      rw [LedMatrixControl.optSingleLoop, ha]
      simp
    unfold LedMatrixControl.optimize_with_ai_single
    rw [step 2 0 (h 0 (by omega)), step 1 1 (h 1 (by omega)),
        step 0 2 (h 2 (by omega)), LedMatrixControl.optSingleLoop]

/-- Witness for C8's amended statement: an identity parse on the all-zero
pattern makes both optimizers return the fallback pattern. -/
theorem c8_identity_fallback_witness :
    AiUtils.optimize_with_ai_single
        (some "B00000000B00000000B00000000B00000000B00000000B00000000B00000000B00000000")
        [0, 0, 0, 0, 0, 0, 0, 0] = AiUtils.simple_pattern ∧
    LedMatrixControl.optimize_with_ai_single (fun _ => some "0 0 0 0 0 0 0 0")
        [0, 0, 0, 0, 0, 0, 0, 0] = LedMatrixControl.simple_symmetrical_pattern :=
  ⟨(c8_identity_fallback.1
      "B00000000B00000000B00000000B00000000B00000000B00000000B00000000B00000000"
      [0, 0, 0, 0, 0, 0, 0, 0] (by decide) rfl).1,
   c8_identity_fallback.2 (fun _ => some "0 0 0 0 0 0 0 0")
     [0, 0, 0, 0, 0, 0, 0, 0] (fun _ _ => rfl)⟩

/-- Claim C10 (confirmed).  For every prompt-independent reply oracle
(arbitrary per-attempt errors and malformed text included) and every
requested frame count `k ≥ 1`, both revisions' animation generation
returns exactly `k` frames, each frame being exactly 8 integers in
[0, 255]. -/
theorem c10_generation_shape :
    ∀ k : Nat, 1 ≤ k →
      ∀ aiOracle lmcOracle : Nat → Nat → Option String,
        ((AiUtils.generate_patterns_animation aiOracle k).length = k ∧
         ∀ f ∈ AiUtils.generate_patterns_animation aiOracle k,
           f.length = 8 ∧ ∀ v ∈ f, v ≤ 255) ∧
        ((LedMatrixControl.generate_patterns_animation lmcOracle k).length = k ∧
         ∀ f ∈ LedMatrixControl.generate_patterns_animation lmcOracle k,
           f.length = 8 ∧ ∀ v ∈ f, v ≤ 255) := by
  intro k _ aiO lmcO
  exact ⟨AiUtils.animFrames_shape aiO k 0, LedMatrixControl.genAnimLoop_shape lmcO k 3 0⟩

/-- Witness for C10 with one frame and a failing service. -/
theorem c10_generation_shape_witness :
    (AiUtils.generate_patterns_animation (fun _ _ => none) 1).length = 1 ∧
    (LedMatrixControl.generate_patterns_animation (fun _ _ => none) 1).length = 1 := by
  have h := c10_generation_shape 1 (by omega) (fun _ _ => none) (fun _ _ => none)
  exact ⟨h.1.1, h.2.1⟩

/-- Claim C1 counterexample.  In `ai_utils.generate_patterns` a frame that
exhausts its three attempts is replaced by the fallback pattern for that
frame alone: with a two-frame request whose first frame parses on the
first attempt and whose second frame gets no reply on any attempt, the
result mixes the generated frame `[255, 0, ..., 0]` with the fallback
frame — it is not the fallback animation repeated twice, so a partial
animation is surfaced to the caller. -/
theorem c1_partial_animation_surfaced :
    AiUtils.generate_patterns_animation
        (fun i a => if i = 0 && a = 0 then
          some "B11111111B00000000B00000000B00000000B00000000B00000000B00000000B00000000"
          else none) 2 =
      [[255, 0, 0, 0, 0, 0, 0, 0], [129, 66, 36, 24, 24, 36, 66, 129]] ∧
    [[255, 0, 0, 0, 0, 0, 0, 0], [129, 66, 36, 24, 24, 36, 66, 129]] ≠
      AiUtils.simple_animation 2 ∧
    ([129, 66, 36, 24, 24, 36, 66, 129] : List Nat) = AiUtils.simple_pattern := by
  refine ⟨rfl, by decide, by decide⟩

/-- Claim C1 (corrected).  In the `ai_utils` revision every frame is
produced independently: frame `i` of the result is its own three-attempt
outcome, with the fallback pattern substituted for that frame alone on
exhaustion (so mixed animations are surfaced).  In the
`led_matrix_control` revision a failed frame aborts the whole-animation
attempt; only when all three whole-animation attempts fail is the fallback
animation (fallback pattern repeated `frame_count` times) returned, and
the result is always either one attempt's complete parse or that fallback
— never a mixture. -/
theorem c1_animation_fallback_semantics :
    ∀ (k : Nat) (aiO lmcO : Nat → Nat → Option String),
      ((AiUtils.generate_patterns_animation aiO k).length = k ∧
       ∀ i, i < k → (AiUtils.generate_patterns_animation aiO k)[i]? =
          some (AiUtils.frameResult (aiO i))) ∧
      ((∀ a, a < 3 → LedMatrixControl.attemptFrames (lmcO a) k 0 = none) →
        LedMatrixControl.generate_patterns_animation lmcO k =
          LedMatrixControl.simple_symmetrical_animation k) ∧
      ((∃ a, a < 3 ∧ LedMatrixControl.attemptFrames (lmcO a) k 0 =
          some (LedMatrixControl.generate_patterns_animation lmcO k)) ∨
        LedMatrixControl.generate_patterns_animation lmcO k =
          LedMatrixControl.simple_symmetrical_animation k) := by
  intro k aiO lmcO
  have step : ∀ left a, LedMatrixControl.attemptFrames (lmcO a) k 0 = none →
      LedMatrixControl.genAnimLoop lmcO k (left + 1) a =
        LedMatrixControl.genAnimLoop lmcO k left (a + 1) := by
    intro left a ha
    rw [LedMatrixControl.genAnimLoop, ha]
  refine ⟨⟨(AiUtils.animFrames_shape aiO k 0).1, ?_⟩, ?_, ?_⟩
  · intro i hi
    simpa using AiUtils.animFrames_getElem aiO k 0 i hi
  · intro h
    unfold LedMatrixControl.generate_patterns_animation
    rw [step 2 0 (h 0 (by omega)), step 1 1 (h 1 (by omega)),
        step 0 2 (h 2 (by omega)), LedMatrixControl.genAnimLoop]
  · have key : ∀ left a,
        (∃ j, j < left ∧ LedMatrixControl.attemptFrames (lmcO (a + j)) k 0 =
          some (LedMatrixControl.genAnimLoop lmcO k left a)) ∨
        LedMatrixControl.genAnimLoop lmcO k left a =
          LedMatrixControl.simple_symmetrical_animation k := by
      intro left
      induction left with
      | zero =>
        intro a
        right
        rw [LedMatrixControl.genAnimLoop]
      | succ left ih =>
        intro a
        match haf : LedMatrixControl.attemptFrames (lmcO a) k 0 with
        | some fl =>
          left
          refine ⟨0, by omega, ?_⟩
          rw [LedMatrixControl.genAnimLoop, haf]
          simpa using haf
        | none =>
          rcases ih (a + 1) with ⟨j, hj, hsome⟩ | hfall
          · left
            refine ⟨j + 1, by omega, ?_⟩
            rw [LedMatrixControl.genAnimLoop, haf]
            have hidx : a + (j + 1) = a + 1 + j := by omega
            rw [hidx]
            exact hsome
          · right
            rw [LedMatrixControl.genAnimLoop, haf]
            exact hfall
    rcases key 3 0 with ⟨j, hj, hsome⟩ | hfall
    · exact Or.inl ⟨j, hj, by simpa using hsome⟩
    · exact Or.inr hfall

/-- Witness for C1's amended statement with one frame and a failing
service: the `ai_utils` result holds its per-frame outcome, the
`led_matrix_control` result is the fallback animation. -/
theorem c1_animation_fallback_semantics_witness :
    (AiUtils.generate_patterns_animation (fun _ _ => none) 1)[0]? =
      some (AiUtils.frameResult (fun _ => none)) ∧
    LedMatrixControl.generate_patterns_animation (fun _ _ => none) 1 =
      LedMatrixControl.simple_symmetrical_animation 1 := by
  have h := c1_animation_fallback_semantics 1 (fun _ _ => none) (fun _ _ => none)
  exact ⟨h.1.2 0 (by omega), h.2.1 (fun _ _ => rfl)⟩

/-- Claim C2 counterexample.  Neither revision of `send_animation` waits
for an acknowledgment: on a valid one-frame animation with the accepted
line `"Animation received."` already pending, both return immediately
after the writes with zero lines read, whereas the behavior the claim
describes (modelled by `send_animation_as_claimed`) consumes the line and
terminates the wait successfully.  The string
`"Invalid end marker received."` appears nowhere in the repository's
sender code. -/
theorem c2_no_ack_wait_counterexample :
    SerialUtils.send_animation [[1, 2, 3, 4, 5, 6, 7, 8]] none =
      ⟨SendResult.sent, [0xFA, 1, 1, 2, 3, 4, 5, 6, 7, 8, 0xFB], 0⟩ ∧
    LedMatrixControl.send_animation [[1, 2, 3, 4, 5, 6, 7, 8]] none =
      ⟨SendResult.sent, [0xFA, 1, 1, 2, 3, 4, 5, 6, 7, 8, 0xFB], 0⟩ ∧
    SpecModel.send_animation_as_claimed [[1, 2, 3, 4, 5, 6, 7, 8]]
        [some "Animation received."] =
      ⟨SendResult.acknowledged, [0xFA, 1, 1, 2, 3, 4, 5, 6, 7, 8, 0xFB], 1⟩ ∧
    SerialUtils.send_animation [[1, 2, 3, 4, 5, 6, 7, 8]] none ≠
      SpecModel.send_animation_as_claimed [[1, 2, 3, 4, 5, 6, 7, 8]]
        [some "Animation received."] := by
  refine ⟨rfl, rfl, rfl, by decide⟩

/-- Claim C2 (corrected).  For every frame list of `N` frames with
`1 ≤ N ≤ 10` and successful writes, both revisions of `send_animation`
write exactly `0xFA`, `N`, the frame bytes concatenated in frame order,
`0xFB` — and then return at once: no acknowledgment line is awaited and no
read is performed. -/
theorem c2_animation_framing :
    ∀ frames : List (List Nat), 1 ≤ frames.length → frames.length ≤ 10 →
      SerialUtils.send_animation frames none =
        ⟨SendResult.sent, 0xFA :: frames.length :: frames.flatten ++ [0xFB], 0⟩ ∧
      LedMatrixControl.send_animation frames none =
        ⟨SendResult.sent, 0xFA :: frames.length :: frames.flatten ++ [0xFB], 0⟩ := by
  intro frames h1 h10
  constructor
  · simp only [SerialUtils.send_animation]
    split
    · rename_i hcond
      simp only [Bool.or_eq_true, decide_eq_true_eq] at hcond
      omega
    · rfl
  · simp only [LedMatrixControl.send_animation]
    split
    · rename_i hcond
      omega
    · split
      · rename_i hcond
        omega
      · rfl

/-- Witness for C2's amended statement on a one-frame animation. -/
theorem c2_animation_framing_witness :
    SerialUtils.send_animation [[1, 2, 3, 4, 5, 6, 7, 8]] none =
      ⟨SendResult.sent, [0xFA, 1, 1, 2, 3, 4, 5, 6, 7, 8, 0xFB], 0⟩ := by
  have h := (c2_animation_framing [[1, 2, 3, 4, 5, 6, 7, 8]]
    (by decide) (by decide)).1
  simpa using h

/-- Claim C3 counterexample.  The `serial_utils.send_frame` revision cited
by the claim performs no acknowledgment wait at all: on a valid 8-byte
pattern with the line `"Pattern received."` already pending it returns the
plain `sent` outcome having read zero lines (so it can never distinguish
`Acknowledged` from `TimedOut`), whereas the
`led_matrix_control.send_single_frame` revision on the same input consumes
the line and acknowledges. -/
theorem c3_su_send_frame_no_ack :
    SerialUtils.send_frame [1, 2, 3, 4, 5, 6, 7, 8] none =
      ⟨SendResult.sent, [0xFF, 1, 2, 3, 4, 5, 6, 7, 8, 0xFE], 0⟩ ∧
    LedMatrixControl.send_single_frame [1, 2, 3, 4, 5, 6, 7, 8] none
        [some "Pattern received."] =
      ⟨SendResult.acknowledged, [0xFF, 1, 2, 3, 4, 5, 6, 7, 8, 0xFE], 1⟩ := by
  exact ⟨rfl, rfl⟩

/-- Claim C3 (corrected).  `led_matrix_control.send_single_frame` behaves
exactly as the claim states: for an 8-byte pattern it writes `0xFF`, the
payload, `0xFE`; returns `acknowledged` precisely when
`"Pattern received."` arrives within the 5-unit poll budget and
`timedOut` otherwise; and any write failure yields `transportError`.
The `serial_utils.send_frame` revision writes the same framing but
returns without any acknowledgment wait. -/
theorem c3_send_single_frame_contract :
    ∀ (pattern : List Nat) (polls : List (Option String)), pattern.length = 8 →
      ((LedMatrixControl.send_single_frame pattern none polls).written =
          0xFF :: pattern ++ [0xFE] ∧
       (LedMatrixControl.send_single_frame pattern none polls).result =
         (if some "Pattern received." ∈ polls.take 5 then SendResult.acknowledged
          else SendResult.timedOut)) ∧
      (∀ j, (LedMatrixControl.send_single_frame pattern (some j) polls).result =
        SendResult.transportError) ∧
      SerialUtils.send_frame pattern none =
        ⟨SendResult.sent, 0xFF :: pattern ++ [0xFE], 0⟩ := by
  intro pattern polls h8
  have hne : ¬pattern.length ≠ 8 := by omega
  have hiff := LedMatrixControl.ackLoop_fst_iff "Pattern received." 5 polls
  refine ⟨⟨?_, ?_⟩, ?_, ?_⟩
  · simp only [LedMatrixControl.send_single_frame]
    rw [if_neg hne]
  · simp only [LedMatrixControl.send_single_frame]
    rw [if_neg hne]
    by_cases hmem : some "Pattern received." ∈ polls.take 5
    · rw [if_pos hmem]
      simp [hiff.mpr hmem]
    · have hb : (LedMatrixControl.ackLoop "Pattern received." 5 polls).1 = false := by
        cases hbb : (LedMatrixControl.ackLoop "Pattern received." 5 polls).1
        · rfl
        · exact absurd (hiff.mp hbb) hmem
      rw [if_neg hmem]
      simp [hb]
  · intro j
    simp only [LedMatrixControl.send_single_frame]
    rw [if_neg hne]
  · simp only [SerialUtils.send_frame]
    rw [if_neg hne]

/-- Witness for C3's amended statement: with the acknowledgment pending the
result is `acknowledged`, and an injected write failure gives
`transportError`. -/
theorem c3_send_single_frame_contract_witness :
    (LedMatrixControl.send_single_frame [1, 2, 3, 4, 5, 6, 7, 8] none
        [some "Pattern received."]).result =
      (if some "Pattern received." ∈
          ([some "Pattern received."] : List (Option String)).take 5
       then SendResult.acknowledged else SendResult.timedOut) ∧
    (LedMatrixControl.send_single_frame [1, 2, 3, 4, 5, 6, 7, 8] (some 0)
        [some "Pattern received."]).result = SendResult.transportError := by
  have h := c3_send_single_frame_contract [1, 2, 3, 4, 5, 6, 7, 8]
    [some "Pattern received."] (by decide)
  exact ⟨h.1.2, h.2.1 0⟩

/-- Claim C4 counterexample.  Under the interleaving in `raceSchedule`
(which realizes the spec's own scenario: `start(framesB)` issued less than
one frame interval after `start(framesA)`), the run emits frame 0 of
`framesA`, then frame 0 of `framesB`, then frame 1 of `framesA`: the
prior loop emits after the new loop has begun (`cleanHandover` is false),
and at the end both loop threads are still unfinished — two playback
loops are active at once with interleaved visual-update posts. -/
theorem c4_interleaved_playback_counterexample :
    (AnimModel.runSystem 2 AnimModel.raceSchedule).emitted =
      [(0, 0), (1, 0), (0, 1)] ∧
    AnimModel.cleanHandover (AnimModel.runSystem 2 AnimModel.raceSchedule).emitted
      = false ∧
    ∀ t ∈ (AnimModel.runSystem 2 AnimModel.raceSchedule).loops,
      t.pc ≠ AnimModel.LoopPC.finished := by
  refine ⟨rfl, rfl, by decide⟩

/-- Claim C4 (corrected).  `start` signals the running loop through the
stop flag but returns without waiting for it to exit, and then clears the
flag before spawning the new loop; a loop suspended between frames can
therefore miss the signal entirely.  There exists an interleaving of the
threads in which the old loop emits a frame after the new loop has begun
emitting and both loops remain active — interleaved callback invocations
from two loops do occur. -/
theorem c4_start_does_not_quiesce :
    ∃ sched : List (Option Nat),
      AnimModel.cleanHandover (AnimModel.runSystem 2 sched).emitted = false ∧
      ∀ t ∈ (AnimModel.runSystem 2 sched).loops,
        t.pc ≠ AnimModel.LoopPC.finished :=
  ⟨AnimModel.raceSchedule, rfl, by decide⟩
